import Mathlib

/-!
Verification of the chart-widget abstraction exercised by
`implot-examples/examples-shared/src/line_plots.rs`.

Coordinates are modelled over `ℚ` (exact arithmetic standing in for the
floating-point scalars of the source).  The binding library itself
(`Plot`, `PlotLine`, the hover/transform queries, the style stack) is not
part of the shipped sources, so those operations are modelled from the
specification, as marked on each definition; the demo file itself
(`line_plots.rs`) is embedded directly.
-/

namespace ImplotSpec

/-- A (min, max) pair of bounds for one axis, mirroring `ImPlotRange`
with fields `Min` and `Max`. -/
structure ImPlotRange where
  Min : ℚ
  Max : ℚ
deriving DecidableEq

/-- A 2-d pixel-space vector, mirroring `ImVec2`. -/
structure ImVec2 where
  x : ℚ
  y : ℚ
deriving DecidableEq

/-- A 2-d data-space point, mirroring `ImPlotPoint`. -/
structure ImPlotPoint where
  x : ℚ
  y : ℚ
deriving DecidableEq

/-! ### LinkedAxisGroup (claim C1)

Modelled from the spec: the `LinkedAxisGroup` is shared ownership of one
`AxisRange`; within one frame the linked panels are drawn sequentially in
caller order, each panel first reads the shared cell as its forced limits
and its draw (body plus backend interaction) may write the cell back.
The write-back of a panel is modelled as a function from the range the
panel read to the range it leaves in the cell (the identity when the
panel does not write). -/

/-- One panel draw of a linked frame: what the panel leaves in the shared
cell, as a function of the forced limits it read. -/
def PanelWrite : Type := ImPlotRange → ImPlotRange

/-- Run one frame of linked panels over the shared cell, returning the
list of forced limits each panel read, in draw order.  Panel 0 reads the
initial cell contents; each subsequent panel reads what the previous
panel left in the cell. -/
def runLinked : ImPlotRange → List PanelWrite → List ImPlotRange
  | _, [] => []
  | shared, b :: bs => shared :: runLinked (b shared) bs

theorem runLinked_length (s : ImPlotRange) (bs : List PanelWrite) :
    (runLinked s bs).length = bs.length := by
  induction bs generalizing s with
  | nil => rfl
  | cons b bs ih => simp [runLinked, ih]

theorem runLinked_head (s : ImPlotRange) (bs : List PanelWrite)
    (h : 0 < (runLinked s bs).length) :
    (runLinked s bs).get ⟨0, h⟩ = s := by
  cases bs with
  | nil => simp [runLinked] at h
  | cons b bs => rfl

theorem runLinked_get_succ (s : ImPlotRange) (bs : List PanelWrite)
    (i : ℕ) (hi : i + 1 < bs.length) :
    (runLinked s bs).get ⟨i + 1, by rw [runLinked_length]; exact hi⟩ =
      bs.get ⟨i, Nat.lt_of_succ_lt hi⟩
        ((runLinked s bs).get ⟨i, by rw [runLinked_length]; exact Nat.lt_of_succ_lt hi⟩) := by
  induction bs generalizing s i with
  | nil => simp at hi
  | cons b bs ih =>
    cases i with
    | zero =>
      have hbs : 0 < bs.length := by simpa using hi
      show (runLinked (b s) bs).get ⟨0, _⟩ = b s
      exact runLinked_head (b s) bs (by rw [runLinked_length]; exact hbs)
    | succ j =>
      have hj : j + 1 < bs.length := by simpa using hi
      exact ih (b s) j hj

/-- C1: in a frame of linked panels drawn sequentially over one shared
`LinkedAxisGroup` cell, panel `i + 1` reads as its forced x-axis limits
exactly the range panel `i` last wrote; in particular, with two panels
drawn A then B, if A's draw writes a range `r` then B reads `r`. -/
theorem linked_panel_reads_previous_write
    (init : ImPlotRange) (bodies : List PanelWrite)
    (i : ℕ) (hi : i + 1 < bodies.length) :
    (runLinked init bodies).get ⟨i + 1, by rw [runLinked_length]; exact hi⟩ =
      bodies.get ⟨i, Nat.lt_of_succ_lt hi⟩
        ((runLinked init bodies).get
          ⟨i, by rw [runLinked_length]; exact Nat.lt_of_succ_lt hi⟩) :=
  runLinked_get_succ init bodies i hi

/-- Witness for C1: with the shared cell initialised to (0, 1) as in
`LinePlotDemoState::new`, panel A writing (2, 5) and panel B not writing,
panel B reads (2, 5). -/
theorem linked_panel_reads_previous_write_witness :
    runLinked ⟨0, 1⟩ [fun _ => ⟨2, 5⟩, id] = [⟨0, 1⟩, ⟨2, 5⟩] ∧
      (runLinked ⟨0, 1⟩ [fun _ => ⟨2, 5⟩, id]).get ⟨1, by decide⟩ = ⟨2, 5⟩ := by
  refine ⟨rfl, ?_⟩
  have h := linked_panel_reads_previous_write ⟨0, 1⟩ [fun _ => ⟨2, 5⟩, id] 0 (by decide)
  simpa using h

/-! ### ChartPanel state machine and query scope (claim C2)

Modelled from the spec: a `ChartPanel` moves Unconfigured → Configured →
Drawing → Closed; each hover/interaction query is legal only in the
Drawing state (inside the `build` callback) and must fail loudly with
`QueryOutsideDrawScope` in any other state, never silently returning a
stale or default value.  Success in Drawing returns the backend's
per-frame interaction value.  The panic in the Rust binding is modelled
as an `Except` error. -/

/-- Lifecycle states of a `ChartPanel`. -/
inductive PanelState
  | Unconfigured
  | Configured
  | Drawing
  | Closed
deriving DecidableEq

/-- Query-scope errors; `QueryOutsideDrawScope` models the panic raised
when a query runs outside a `Plot::build` callback. -/
inductive QueryError
  | QueryOutsideDrawScope
deriving DecidableEq

/-- The backend's per-frame interaction state, readable only while the
panel is in the Drawing state. -/
structure Interaction where
  hovered : Bool
  mousePos : ImVec2
  mousePlotPos : ImPlotPoint
  legendHoveredIdx : Option ℕ
deriving DecidableEq

/-- Guard shared by every query: return the backend value only in the
Drawing state, fail with `QueryOutsideDrawScope` otherwise. -/
def inDrawScope {α : Type} (st : PanelState) (v : α) : Except QueryError α :=
  match st with
  | PanelState.Drawing => Except.ok v
  | _ => Except.error QueryError.QueryOutsideDrawScope

/-- Modelled from the spec: `is_plot_hovered`, legal only in Drawing. -/
def is_plot_hovered (st : PanelState) (it : Interaction) : Except QueryError Bool :=
  inDrawScope st it.hovered

/-- Modelled from the spec: `get_plot_mouse_position`, legal only in Drawing. -/
def get_plot_mouse_position (st : PanelState) (it : Interaction) :
    Except QueryError ImPlotPoint :=
  inDrawScope st it.mousePlotPos

/-! ### Pixel / data coordinate transform (claims C2, C5, C7, C10)

Modelled from the spec: the backend resolves, from the current
`AxisRange` of each axis and the panel's pixel rectangle, an affine
transform between data space and screen pixel space; the query functions
`plot_to_pixels_vec2` and `pixels_to_plot_vec2` apply it and its
inverse. -/

/-- The panel's currently-resolved axis transform: the data range of
each axis plus the pixel extent of the plot rectangle. -/
structure PlotTransform where
  xRange : ImPlotRange
  yRange : ImPlotRange
  pixelX : ImPlotRange
  pixelY : ImPlotRange
deriving DecidableEq

/-- Affine map of one coordinate from the range `src` onto `dst`. -/
def axisMap (src dst : ImPlotRange) (v : ℚ) : ℚ :=
  dst.Min + (v - src.Min) / (src.Max - src.Min) * (dst.Max - dst.Min)

/-- Modelled from the spec: data-space point to screen pixels. -/
def plotToPixels (tr : PlotTransform) (p : ImPlotPoint) : ImVec2 :=
  ⟨axisMap tr.xRange tr.pixelX p.x, axisMap tr.yRange tr.pixelY p.y⟩

/-- Modelled from the spec: screen pixels to data-space point; total on
all pixel inputs. -/
def pixelsToPlot (tr : PlotTransform) (v : ImVec2) : ImPlotPoint :=
  ⟨axisMap tr.pixelX tr.xRange v.x, axisMap tr.pixelY tr.yRange v.y⟩

/-- Modelled from the spec: `plot_to_pixels_vec2`, legal only in Drawing. -/
def plot_to_pixels_vec2 (st : PanelState) (tr : PlotTransform) (p : ImPlotPoint) :
    Except QueryError ImVec2 :=
  inDrawScope st (plotToPixels tr p)

/-- Modelled from the spec: `pixels_to_plot_vec2`, legal only in Drawing. -/
def pixels_to_plot_vec2 (st : PanelState) (tr : PlotTransform) (v : ImVec2) :
    Except QueryError ImPlotPoint :=
  inDrawScope st (pixelsToPlot tr v)

/-- One submitted line series: a display label plus the sample
coordinates, mirroring the arguments of `PlotLine::plot`. -/
structure Series where
  label : String
  xs : List ℚ
  ys : List ℚ
deriving DecidableEq

/-- The per-frame data of one panel: the series submitted so far, in
submission order. -/
structure PanelData where
  series : List Series
deriving DecidableEq

/-- The in-scope value of the legend hover query: true when the pointer
is over a legend entry (an index into the series submitted this frame,
as resolved by the backend) and that entry carries `label`. -/
def legendEntryHovered (panel : PanelData) (it : Interaction) (label : String) : Bool :=
  match it.legendHoveredIdx with
  | none => false
  | some i => decide ((panel.series.map Series.label).get? i = some label)

/-- Modelled from the spec: `is_legend_entry_hovered label` is true when
the pointer is over the legend entry matching `label`; legal only in
Drawing. -/
def is_legend_entry_hovered (st : PanelState) (panel : PanelData) (it : Interaction)
    (label : String) : Except QueryError Bool :=
  inDrawScope st (legendEntryHovered panel it label)

/-- C2: each hover/interaction query (`is_plot_hovered`,
`get_plot_mouse_position`, `plot_to_pixels_vec2`, `pixels_to_plot_vec2`,
`is_legend_entry_hovered`) fails with `QueryOutsideDrawScope` when called
after the panel's draw has returned (Closed state), and succeeds when
called inside the build callback (Drawing state). -/
theorem queries_fail_outside_draw_scope
    (it : Interaction) (tr : PlotTransform) (panel : PanelData)
    (p : ImPlotPoint) (v : ImVec2) (label : String) :
    (is_plot_hovered PanelState.Closed it = Except.error QueryError.QueryOutsideDrawScope ∧
      get_plot_mouse_position PanelState.Closed it =
        Except.error QueryError.QueryOutsideDrawScope ∧
      plot_to_pixels_vec2 PanelState.Closed tr p =
        Except.error QueryError.QueryOutsideDrawScope ∧
      pixels_to_plot_vec2 PanelState.Closed tr v =
        Except.error QueryError.QueryOutsideDrawScope ∧
      is_legend_entry_hovered PanelState.Closed panel it label =
        Except.error QueryError.QueryOutsideDrawScope) ∧
    ((is_plot_hovered PanelState.Drawing it).isOk ∧
      (get_plot_mouse_position PanelState.Drawing it).isOk ∧
      (plot_to_pixels_vec2 PanelState.Drawing tr p).isOk ∧
      (pixels_to_plot_vec2 PanelState.Drawing tr v).isOk ∧
      (is_legend_entry_hovered PanelState.Drawing panel it label).isOk) := by
  refine ⟨⟨rfl, rfl, rfl, rfl, rfl⟩, ⟨rfl, rfl, rfl, rfl, rfl⟩⟩

/-! ### Line series submission (claim C3)

Modelled from the spec: `submit_line_series(label, xs, ys)` requires
`xs` and `ys` to have equal length; on a mismatch it raises
`DataLengthMismatch`, aborts only that series' submission, and leaves
every series already submitted to the panel unaffected; on equal lengths
the series is appended to the panel's frame data. -/

/-- Series-submission errors. -/
inductive PlotError
  | DataLengthMismatch
deriving DecidableEq

/-- Modelled from the spec: submit one line series to a panel, returning
the updated panel data and the error, if any. -/
def submit_line_series (panel : PanelData) (label : String) (xs ys : List ℚ) :
    PanelData × Option PlotError :=
  if xs.length = ys.length then
    (⟨panel.series ++ [⟨label, xs, ys⟩]⟩, none)
  else
    (panel, some PlotError.DataLengthMismatch)

/-- C3: submitting a line series with mismatched `xs`/`ys` lengths raises
`DataLengthMismatch` and leaves every previously submitted series of the
panel unchanged, while an equal-length submission succeeds (no error) and
appends exactly the new series; in both cases the series already
submitted are unaffected. -/
theorem submit_line_series_length_check
    (panel : PanelData) (label : String) (xs ys : List ℚ) :
    (xs.length ≠ ys.length →
      submit_line_series panel label xs ys = (panel, some PlotError.DataLengthMismatch)) ∧
    (xs.length = ys.length →
      submit_line_series panel label xs ys = (⟨panel.series ++ [⟨label, xs, ys⟩]⟩, none)) ∧
    (∀ i : ℕ, i < panel.series.length →
      ((submit_line_series panel label xs ys).1.series.get? i = panel.series.get? i)) := by
  refine ⟨fun h => by simp [submit_line_series, h], fun h => by simp [submit_line_series, h], ?_⟩
  intro i hi
  by_cases h : xs.length = ys.length
  · simp [submit_line_series, h, List.getElem?_append_left hi]
  · simp [submit_line_series, h]

/-- Witness for C3: with one series already in the panel, a mismatched
submission (two xs, one y) errors and leaves the panel unchanged, an
equal-length submission appends, and in both runs the original series is
still readable at its index. -/
theorem submit_line_series_length_check_witness :
    submit_line_series ⟨[⟨"old", [0], [0]⟩]⟩ "a" [1, 2] [3] =
        (⟨[⟨"old", [0], [0]⟩]⟩, some PlotError.DataLengthMismatch) ∧
      submit_line_series ⟨[⟨"old", [0], [0]⟩]⟩ "a" [1, 2] [3, 4] =
        (⟨[⟨"old", [0], [0]⟩, ⟨"a", [1, 2], [3, 4]⟩]⟩, none) ∧
      (submit_line_series ⟨[⟨"old", [0], [0]⟩]⟩ "a" [1, 2] [3]).1.series.get? 0 =
        some ⟨"old", [0], [0]⟩ := by
  refine ⟨?_, ?_, ?_⟩
  · exact (submit_line_series_length_check ⟨[⟨"old", [0], [0]⟩]⟩ "a" [1, 2] [3]).1 (by decide)
  · exact (submit_line_series_length_check ⟨[⟨"old", [0], [0]⟩]⟩ "a" [1, 2] [3, 4]).2.1 rfl
  · have h :=
      (submit_line_series_length_check ⟨[⟨"old", [0], [0]⟩]⟩ "a" [1, 2] [3]).2.2 0 (by decide)
    simpa using h

/-! ### Style override stack (claim C4)

Modelled from the spec: `push(attribute, value)` records the attribute's
previous value in a handle and installs the override; `release(handle)`
(the `.pop()` call on the returned value in the binding) restores the
previous value; handles released in strict LIFO order restore the state
before either push.  The three public entry points used by
`show_style_plot` are `push_style_color`, `push_style_var_i32` and
`push_style_var_f32`. -/

/-- An RGBA colour value, mirroring `ImVec4`. -/
structure ImVec4 where
  x : ℚ
  y : ℚ
  z : ℚ
  w : ℚ
deriving DecidableEq

/-- Colour elements of the plot style (the ones the demo exercises). -/
inductive PlotColorElement
  | Line
  | Fill
  | MarkerOutline
  | MarkerFill
  | FrameBg
  | PlotBg
  | PlotBorder
deriving DecidableEq

/-- Numeric style variables (the ones the demo exercises). -/
inductive StyleVar
  | Marker
  | LineWeight
  | MarkerSize
  | MarkerWeight
deriving DecidableEq

/-- One addressable style attribute: a colour element or a numeric style
variable. -/
inductive StyleAttr
  | color (elem : PlotColorElement)
  | var (v : StyleVar)
deriving DecidableEq

/-- The current value of one style attribute. -/
inductive StyleValue
  | colorVal (c : ImVec4)
  | i32Val (v : ℤ)
  | f32Val (v : ℚ)
deriving DecidableEq

/-- The full style state: a value for every attribute. -/
def StyleState : Type := StyleAttr → StyleValue

/-- The handle returned by a push: which attribute was overridden and the
value it held before the push. -/
structure StyleToken where
  attr : StyleAttr
  saved : StyleValue
deriving DecidableEq

/-- Install an override for one attribute, returning the new style state
and a handle holding the previous value. -/
def pushAttr (s : StyleState) (a : StyleAttr) (v : StyleValue) : StyleState × StyleToken :=
  (fun b => if b = a then v else s b, ⟨a, s a⟩)

/-- Modelled from the spec: release a handle (`.pop()`), restoring the
attribute to the value it held when the handle was obtained. -/
def popStyle (s : StyleState) (t : StyleToken) : StyleState :=
  fun b => if b = t.attr then t.saved else s b

/-- Modelled from the spec: `push_style_color`. -/
def push_style_color (s : StyleState) (elem : PlotColorElement) (r g b a : ℚ) :
    StyleState × StyleToken :=
  pushAttr s (StyleAttr.color elem) (StyleValue.colorVal ⟨r, g, b, a⟩)

/-- Modelled from the spec: `push_style_var_i32`. -/
def push_style_var_i32 (s : StyleState) (v : StyleVar) (x : ℤ) : StyleState × StyleToken :=
  pushAttr s (StyleAttr.var v) (StyleValue.i32Val x)

/-- Modelled from the spec: `push_style_var_f32`. -/
def push_style_var_f32 (s : StyleState) (v : StyleVar) (x : ℚ) : StyleState × StyleToken :=
  pushAttr s (StyleAttr.var v) (StyleValue.f32Val x)

theorem popStyle_pushAttr (s : StyleState) (a : StyleAttr) (v : StyleValue) :
    popStyle (pushAttr s a v).1 (pushAttr s a v).2 = s := by
  funext b
  by_cases hb : b = a <;> simp [popStyle, pushAttr, hb]

theorem popStyle_pushAttr_lifo (s : StyleState) (a b : StyleAttr) (v w : StyleValue) :
    popStyle
        (popStyle (pushAttr (pushAttr s a v).1 b w).1 (pushAttr (pushAttr s a v).1 b w).2)
        (pushAttr s a v).2 = s := by
  rw [popStyle_pushAttr (pushAttr s a v).1 b w]
  exact popStyle_pushAttr s a v

/-- C4: calling `.pop()` on the handle returned by `push_style_color`,
`push_style_var_i32` or `push_style_var_f32` restores the attribute to
exactly its pre-push value (the whole style state is restored), and two
overrides pushed and released in LIFO order (inner popped before outer)
leave the style state exactly as it was before either push — here in the
shape of `show_style_plot`: a colour push outside, a numeric push
inside. -/
theorem style_push_pop_restores (s : StyleState)
    (elem : PlotColorElement) (r g b a : ℚ) (sv sw : StyleVar) (iv : ℤ) (fv : ℚ) :
    popStyle (push_style_color s elem r g b a).1 (push_style_color s elem r g b a).2 = s ∧
    popStyle (push_style_var_i32 s sv iv).1 (push_style_var_i32 s sv iv).2 = s ∧
    popStyle (push_style_var_f32 s sw fv).1 (push_style_var_f32 s sw fv).2 = s ∧
    popStyle
        (popStyle
          (push_style_var_i32 (push_style_color s elem r g b a).1 sv iv).1
          (push_style_var_i32 (push_style_color s elem r g b a).1 sv iv).2)
        (push_style_color s elem r g b a).2 = s := by
  exact ⟨popStyle_pushAttr s _ _, popStyle_pushAttr s _ _, popStyle_pushAttr s _ _,
    popStyle_pushAttr_lifo s _ _ _ _⟩

/-! ### Coordinate round trips (claim C5) and totality (claim C7) -/

/-- A transform is non-degenerate when each axis has a data range and a
pixel extent of nonzero width. -/
def PlotTransform.nondegenerate (tr : PlotTransform) : Prop :=
  tr.xRange.Min ≠ tr.xRange.Max ∧ tr.yRange.Min ≠ tr.yRange.Max ∧
    tr.pixelX.Min ≠ tr.pixelX.Max ∧ tr.pixelY.Min ≠ tr.pixelY.Max

instance (tr : PlotTransform) : Decidable tr.nondegenerate := by
  unfold PlotTransform.nondegenerate
  infer_instance

theorem axisMap_axisMap (src dst : ImPlotRange) (hs : src.Min ≠ src.Max)
    (hd : dst.Min ≠ dst.Max) (v : ℚ) :
    axisMap dst src (axisMap src dst v) = v := by
  have hs2 : src.Max - src.Min ≠ 0 := sub_ne_zero.mpr (Ne.symm hs)
  have hd2 : dst.Max - dst.Min ≠ 0 := sub_ne_zero.mpr (Ne.symm hd)
  unfold axisMap
  field_simp
  ring

/-- C5: for a panel with fixed size and fixed axis ranges (a fixed,
non-degenerate resolved transform), converting any pixel point to data
space with `pixels_to_plot_vec2` and back with `plot_to_pixels_vec2`
yields the original pixel point, and symmetrically data → pixel → data
yields the original data point (exact over the rational model, hence
within any floating-point tolerance). -/
theorem pixels_plot_round_trip (tr : PlotTransform) (h : tr.nondegenerate)
    (v : ImVec2) (p : ImPlotPoint) :
    plotToPixels tr (pixelsToPlot tr v) = v ∧ pixelsToPlot tr (plotToPixels tr p) = p := by
  obtain ⟨hx, hy, hpx, hpy⟩ := h
  constructor
  · show ImVec2.mk _ _ = v
    have h1 := axisMap_axisMap tr.pixelX tr.xRange hpx hx v.x
    have h2 := axisMap_axisMap tr.pixelY tr.yRange hpy hy v.y
    cases v
    simp_all [plotToPixels, pixelsToPlot]
  · show ImPlotPoint.mk _ _ = p
    have h1 := axisMap_axisMap tr.xRange tr.pixelX hx hpx p.x
    have h2 := axisMap_axisMap tr.yRange tr.pixelY hy hpy p.y
    cases p
    simp_all [plotToPixels, pixelsToPlot]

/-- Witness for C5: a concrete panel (data ranges (0,5) × (0,5), pixel
rect (100,600) × (50,350) as in the 300-pixel-tall query demo) round
trips the pixel point (130, 70) and the data point (2, 1). -/
theorem pixels_plot_round_trip_witness :
    PlotTransform.nondegenerate ⟨⟨0, 5⟩, ⟨0, 5⟩, ⟨100, 600⟩, ⟨50, 350⟩⟩ ∧
      plotToPixels ⟨⟨0, 5⟩, ⟨0, 5⟩, ⟨100, 600⟩, ⟨50, 350⟩⟩
          (pixelsToPlot ⟨⟨0, 5⟩, ⟨0, 5⟩, ⟨100, 600⟩, ⟨50, 350⟩⟩ ⟨130, 70⟩) = ⟨130, 70⟩ ∧
      pixelsToPlot ⟨⟨0, 5⟩, ⟨0, 5⟩, ⟨100, 600⟩, ⟨50, 350⟩⟩
          (plotToPixels ⟨⟨0, 5⟩, ⟨0, 5⟩, ⟨100, 600⟩, ⟨50, 350⟩⟩ ⟨2, 1⟩) = ⟨2, 1⟩ := by
  have h := pixels_plot_round_trip ⟨⟨0, 5⟩, ⟨0, 5⟩, ⟨100, 600⟩, ⟨50, 350⟩⟩
    (by decide) ⟨130, 70⟩ ⟨2, 1⟩
  exact ⟨by decide, h.1, h.2⟩

theorem axisMap_sub_max (src dst : ImPlotRange) (hs : src.Min ≠ src.Max) (v : ℚ) :
    axisMap src dst v - dst.Max =
      (v - src.Max) * (dst.Max - dst.Min) / (src.Max - src.Min) := by
  have hs2 : src.Max - src.Min ≠ 0 := sub_ne_zero.mpr (Ne.symm hs)
  unfold axisMap
  field_simp
  ring

theorem axisMap_sub_min (src dst : ImPlotRange) (hs : src.Min ≠ src.Max) (v : ℚ) :
    axisMap src dst v - dst.Min =
      (v - src.Min) * (dst.Max - dst.Min) / (src.Max - src.Min) := by
  have hs2 : src.Max - src.Min ≠ 0 := sub_ne_zero.mpr (Ne.symm hs)
  unfold axisMap
  field_simp
  ring

theorem axisMap_gt_max (src dst : ImPlotRange) (hs : src.Min < src.Max)
    (hd : dst.Min < dst.Max) (v : ℚ) (hv : src.Max < v) :
    dst.Max < axisMap src dst v := by
  have h := axisMap_sub_max src dst (ne_of_lt hs) v
  have hpos : 0 < (v - src.Max) * (dst.Max - dst.Min) / (src.Max - src.Min) :=
    div_pos (mul_pos (sub_pos.mpr hv) (sub_pos.mpr hd)) (sub_pos.mpr hs)
  linarith

theorem axisMap_lt_min (src dst : ImPlotRange) (hs : src.Min < src.Max)
    (hd : dst.Min < dst.Max) (v : ℚ) (hv : v < src.Min) :
    axisMap src dst v < dst.Min := by
  have h := axisMap_sub_min src dst (ne_of_lt hs) v
  have hneg : (v - src.Min) * (dst.Max - dst.Min) / (src.Max - src.Min) < 0 :=
    div_neg_of_neg_of_pos
      (mul_neg_of_neg_of_pos (sub_neg.mpr hv) (sub_pos.mpr hd)) (sub_pos.mpr hs)
  linarith

/-- C7: inside the draw scope, `pixels_to_plot_vec2` returns a defined
data-space result for every pixel input, independently of the hover
state (the same interaction state still answers `is_plot_hovered` with
its own flag, so "not hovered" and a coordinate value stay
distinguishable); when the pixel lies outside the panel's horizontal
bounds the converted x coordinate is simply outside the visible x-axis
range. -/
theorem pixels_to_plot_total_out_of_range
    (tr : PlotTransform) (it : Interaction) (v : ImVec2)
    (hpx : tr.pixelX.Min < tr.pixelX.Max) (hx : tr.xRange.Min < tr.xRange.Max) :
    pixels_to_plot_vec2 PanelState.Drawing tr v = Except.ok (pixelsToPlot tr v) ∧
      is_plot_hovered PanelState.Drawing it = Except.ok it.hovered ∧
      (tr.pixelX.Max < v.x → tr.xRange.Max < (pixelsToPlot tr v).x) ∧
      (v.x < tr.pixelX.Min → (pixelsToPlot tr v).x < tr.xRange.Min) := by
  refine ⟨rfl, rfl, ?_, ?_⟩
  · intro hvx
    exact axisMap_gt_max tr.pixelX tr.xRange hpx hx v.x hvx
  · intro hvx
    exact axisMap_lt_min tr.pixelX tr.xRange hpx hx v.x hvx

/-- Witness for C7: with the concrete transform of the query demo, a
non-hovered interaction state and the off-panel pixel x = 700, the query
still returns a value and its x coordinate 6 exceeds the visible
maximum 5. -/
theorem pixels_to_plot_total_out_of_range_witness :
    pixels_to_plot_vec2 PanelState.Drawing ⟨⟨0, 5⟩, ⟨0, 5⟩, ⟨100, 600⟩, ⟨50, 350⟩⟩ ⟨700, 70⟩ =
        Except.ok (pixelsToPlot ⟨⟨0, 5⟩, ⟨0, 5⟩, ⟨100, 600⟩, ⟨50, 350⟩⟩ ⟨700, 70⟩) ∧
      is_plot_hovered PanelState.Drawing ⟨false, ⟨700, 70⟩, ⟨6, 1⟩, none⟩ = Except.ok false ∧
      (5 : ℚ) <
        (pixelsToPlot ⟨⟨0, 5⟩, ⟨0, 5⟩, ⟨100, 600⟩, ⟨50, 350⟩⟩ ⟨700, 70⟩).x := by
  have h := pixels_to_plot_total_out_of_range ⟨⟨0, 5⟩, ⟨0, 5⟩, ⟨100, 600⟩, ⟨50, 350⟩⟩
    ⟨false, ⟨700, 70⟩, ⟨6, 1⟩, none⟩ ⟨700, 70⟩ (by norm_num) (by norm_num)
  exact ⟨h.1, h.2.1, h.2.2.1 (by norm_num)⟩

/-! ### Axis-limit persistence conditions (claim C6)

Modelled from the spec: a per-call persistence condition decides whether
forced axis limits apply on every frame (`Always`: always overwrite, even
after user scroll/drag) or only on the plot's first draw
(`FirstUseEver`: set once, then user adjustments stick across frames).
A multi-frame run threads the plot's stored axis range through the
frames; each frame first resolves the shown limits from the condition,
then the user's drag/zoom during that frame rewrites the stored range. -/

/-- Persistence conditions for forced axis limits, mirroring
`Condition::Always` and `Condition::FirstUseEver`. -/
inductive Condition
  | Always
  | FirstUseEver
deriving DecidableEq

/-- The plot's stored per-axis state across frames: the current range and
whether the plot has never been drawn yet. -/
structure AxisState where
  range : ImPlotRange
  firstUse : Bool
deriving DecidableEq

/-- Resolve the limits shown in one frame from the persistence
condition, the forced limits and the stored state. -/
def applyLimits (cond : Condition) (forced : ImPlotRange) (st : AxisState) : ImPlotRange :=
  match cond with
  | Condition.Always => forced
  | Condition.FirstUseEver => if st.firstUse then forced else st.range

/-- Run a sequence of frames, returning the limits shown in each frame.
Each frame resolves its shown limits, then the user's interaction for
that frame (drag/zoom, or the identity) rewrites the stored range. -/
def runPlotFrames (cond : Condition) (forced : ImPlotRange) :
    AxisState → List (ImPlotRange → ImPlotRange) → List ImPlotRange
  | _, [] => []
  | st, e :: es =>
      applyLimits cond forced st ::
        runPlotFrames cond forced ⟨e (applyLimits cond forced st), false⟩ es

theorem runPlotFrames_cons (cond : Condition) (forced : ImPlotRange) (st : AxisState)
    (e : ImPlotRange → ImPlotRange) (es : List (ImPlotRange → ImPlotRange)) :
    runPlotFrames cond forced st (e :: es) =
      applyLimits cond forced st ::
        runPlotFrames cond forced ⟨e (applyLimits cond forced st), false⟩ es := rfl

theorem runPlotFrames_firstUseEver_eq_runLinked (forced : ImPlotRange) (r : ImPlotRange)
    (es : List (ImPlotRange → ImPlotRange)) :
    runPlotFrames Condition.FirstUseEver forced ⟨r, false⟩ es = runLinked r es := by
  induction es generalizing r with
  | nil => rfl
  | cons e es ih =>
    rw [runPlotFrames_cons]
    show applyLimits Condition.FirstUseEver forced ⟨r, false⟩ ::
      runPlotFrames Condition.FirstUseEver forced _ es = _
    simp only [applyLimits]
    rw [if_neg (by simp)]
    rw [ih (e r)]
    rfl

theorem runPlotFrames_firstUseEver_initial (forced init : ImPlotRange)
    (es : List (ImPlotRange → ImPlotRange)) :
    runPlotFrames Condition.FirstUseEver forced ⟨init, true⟩ es = runLinked forced es := by
  cases es with
  | nil => rfl
  | cons e es =>
    rw [runPlotFrames_cons]
    show applyLimits Condition.FirstUseEver forced ⟨init, true⟩ ::
      runPlotFrames Condition.FirstUseEver forced _ es = _
    simp only [applyLimits, if_pos]
    rw [runPlotFrames_firstUseEver_eq_runLinked]
    rfl

theorem runPlotFrames_always_mem (forced : ImPlotRange) (st : AxisState)
    (es : List (ImPlotRange → ImPlotRange)) (r : ImPlotRange)
    (hr : r ∈ runPlotFrames Condition.Always forced st es) : r = forced := by
  induction es generalizing st with
  | nil => simp [runPlotFrames] at hr
  | cons e es ih =>
    rw [runPlotFrames_cons] at hr
    rcases List.mem_cons.mp hr with h | h
    · exact h
    · exact ih _ h

/-- C6: limits forced with `Condition::Always` are re-applied on every
frame (every frame shows exactly the forced limits, whatever the user's
scroll/drag did in earlier frames), while limits forced with
`Condition::FirstUseEver` are applied only on the first draw (frame 0
shows the forced limits) and afterwards each frame shows whatever the
user's interaction in the previous frame left behind, so user
modifications persist across later frames. -/
theorem persistence_condition_semantics (forced init : ImPlotRange)
    (edits : List (ImPlotRange → ImPlotRange)) :
    (∀ r ∈ runPlotFrames Condition.Always forced ⟨init, true⟩ edits, r = forced) ∧
    ((runPlotFrames Condition.FirstUseEver forced ⟨init, true⟩ edits).head? =
      if edits.isEmpty then none else some forced) ∧
    (∀ i : ℕ, ∀ hi : i + 1 < edits.length,
      (runPlotFrames Condition.FirstUseEver forced ⟨init, true⟩ edits).get
          ⟨i + 1, by rw [runPlotFrames_firstUseEver_initial, runLinked_length]; exact hi⟩ =
        edits.get ⟨i, Nat.lt_of_succ_lt hi⟩
          ((runPlotFrames Condition.FirstUseEver forced ⟨init, true⟩ edits).get
            ⟨i, by
              rw [runPlotFrames_firstUseEver_initial, runLinked_length]
              exact Nat.lt_of_succ_lt hi⟩)) := by
  refine ⟨fun r hr => runPlotFrames_always_mem forced _ edits r hr, ?_, ?_⟩
  · rw [runPlotFrames_firstUseEver_initial]
    cases edits with
    | nil => rfl
    | cons e es => rfl
  · intro i hi
    have heq := runPlotFrames_firstUseEver_initial forced init edits
    have h := runLinked_get_succ forced edits i hi
    rw [List.get_of_eq heq, List.get_of_eq heq]
    exact h

/-- Witness for C6: forced limits (2, 3) as in the configurable demo,
initial stored range (0, 1), two frames where the user drags the range to
(9, 10) in frame 0: under `Always` both frames show (2, 3); under
`FirstUseEver` frame 0 shows (2, 3) and frame 1 shows the user's
(9, 10). -/
theorem persistence_condition_semantics_witness :
    runPlotFrames Condition.Always ⟨2, 3⟩ ⟨⟨0, 1⟩, true⟩ [fun _ => ⟨9, 10⟩, id] =
        [⟨2, 3⟩, ⟨2, 3⟩] ∧
      (runPlotFrames Condition.Always ⟨2, 3⟩ ⟨⟨0, 1⟩, true⟩
        [fun _ => ⟨9, 10⟩, id]).get ⟨1, by decide⟩ = ⟨2, 3⟩ ∧
      (runPlotFrames Condition.FirstUseEver ⟨2, 3⟩ ⟨⟨0, 1⟩, true⟩
        [fun _ => ⟨9, 10⟩, id]).head? = some ⟨2, 3⟩ ∧
      (runPlotFrames Condition.FirstUseEver ⟨2, 3⟩ ⟨⟨0, 1⟩, true⟩
        [fun _ => ⟨9, 10⟩, id]).get ⟨1, by decide⟩ = ⟨9, 10⟩ := by
  have h := persistence_condition_semantics ⟨2, 3⟩ ⟨0, 1⟩ [fun _ => ⟨9, 10⟩, id]
  refine ⟨rfl, ?_, ?_, ?_⟩
  · exact h.1 _ (by simp [runPlotFrames_cons, runPlotFrames, applyLimits])
  · have h2 := h.2.1
    simpa using h2
  · have h3 := h.2.2 0 (by decide)
    simpa using h3

/-! ### Legend hover query (claim C8) -/

/-- C8: inside the draw body, `is_legend_entry_hovered label` answers
whether the pointer is over the legend entry matching `label` (true
exactly when the backend resolves the pointer to a legend entry whose
submitted label is `label`), and it answers false whenever no series with
that label was submitted to the panel this frame. -/
theorem legend_entry_hovered_semantics (panel : PanelData) (it : Interaction)
    (label : String) :
    (is_legend_entry_hovered PanelState.Drawing panel it label = Except.ok true ↔
      ∃ i : ℕ, it.legendHoveredIdx = some i ∧
        (panel.series.map Series.label).get? i = some label) ∧
    (label ∉ panel.series.map Series.label →
      is_legend_entry_hovered PanelState.Drawing panel it label = Except.ok false) := by
  constructor
  · unfold is_legend_entry_hovered inDrawScope legendEntryHovered
    cases h : it.legendHoveredIdx with
    | none => simp [h]
    | some i => simp [h]
  · intro hmem
    unfold is_legend_entry_hovered inDrawScope legendEntryHovered
    cases h : it.legendHoveredIdx with
    | none => simp [h]
    | some i =>
      simp only [h]
      simp only [Except.ok.injEq, decide_eq_false_iff_not,
        List.get?_eq_getElem?, List.getElem?_map, Option.map_eq_some']
      rintro ⟨x, hx, hlab⟩
      exact hmem (hlab ▸ List.mem_map_of_mem Series.label
        (List.mem_iff_getElem?.mpr ⟨i, hx⟩))

/-- Witness for C8: the query demo's panel has series "Legend1" and
"Legend2"; with the pointer over legend entry 0 the query answers true
for "Legend1", and for the never-submitted label "Legend3" it answers
false. -/
theorem legend_entry_hovered_semantics_witness :
    is_legend_entry_hovered PanelState.Drawing
        ⟨[⟨"Legend1", [2, 2], [2, 1]⟩, ⟨"Legend2", [0, 0], [1, 1]⟩]⟩
        ⟨true, ⟨0, 0⟩, ⟨0, 0⟩, some 0⟩ "Legend1" = Except.ok true ∧
      is_legend_entry_hovered PanelState.Drawing
        ⟨[⟨"Legend1", [2, 2], [2, 1]⟩, ⟨"Legend2", [0, 0], [1, 1]⟩]⟩
        ⟨true, ⟨0, 0⟩, ⟨0, 0⟩, some 0⟩ "Legend3" = Except.ok false := by
  constructor
  · exact (legend_entry_hovered_semantics
        ⟨[⟨"Legend1", [2, 2], [2, 1]⟩, ⟨"Legend2", [0, 0], [1, 1]⟩]⟩
        ⟨true, ⟨0, 0⟩, ⟨0, 0⟩, some 0⟩ "Legend1").1.mpr ⟨0, rfl, rfl⟩
  · exact (legend_entry_hovered_semantics
        ⟨[⟨"Legend1", [2, 2], [2, 1]⟩, ⟨"Legend2", [0, 0], [1, 1]⟩]⟩
        ⟨true, ⟨0, 0⟩, ⟨0, 0⟩, some 0⟩ "Legend3").2 (by decide)

/-! ### The demo state and linked-plot aliasing (claim C9)

Embedding of `LinePlotDemoState` from `line_plots.rs`.  The Rust
`Rc<RefCell<ImPlotRange>>` is modelled as an index into an arena of
cells: `Rc::clone` copies the handle (the index), never the range
value, so two clones alias the same cell. -/

/-- The arena of shared range cells (the heap of
`Rc<RefCell<ImPlotRange>>` allocations). -/
structure RcHeap where
  cells : List ImPlotRange
deriving DecidableEq

/-- A shared-ownership handle to one cell: the model of
`Rc<RefCell<ImPlotRange>>`. -/
structure RcRange where
  idx : ℕ
deriving DecidableEq

/-- Allocate a fresh cell (`Rc::new(RefCell::new(r))`). -/
def RcHeap.alloc (h : RcHeap) (r : ImPlotRange) : RcHeap × RcRange :=
  (⟨h.cells ++ [r]⟩, ⟨h.cells.length⟩)

/-- Read a cell through a handle (`.borrow()`). -/
def RcHeap.read (h : RcHeap) (c : RcRange) : Option ImPlotRange :=
  h.cells.get? c.idx

/-- `Rc::clone`: a new handle to the same cell; the range value is not
copied. -/
def RcRange.clone (c : RcRange) : RcRange := c

/-- `LinePlotDemoState`: the demo's only persistent state, holding the
shared linked-axis limits. -/
structure LinePlotDemoState where
  linked_limits : RcRange
deriving DecidableEq

/-- `LinePlotDemoState::new`: allocates the shared cell initialised to
`ImPlotRange { Min: 0.0, Max: 1.0 }`. -/
def LinePlotDemoState.new (h : RcHeap) : RcHeap × LinePlotDemoState :=
  (⟨(h.alloc ⟨0, 1⟩).1.cells⟩, ⟨(h.alloc ⟨0, 1⟩).2⟩)

/-- `Default for LinePlotDemoState`: delegates to `Self::new()`. -/
def LinePlotDemoState.default (h : RcHeap) : RcHeap × LinePlotDemoState :=
  LinePlotDemoState.new h

/-- `show_linked_x_axis_plots`: the handles passed to `linked_x_limits`
of "Linked plot 1" and "Linked plot 2", each a `clone()` of
`self.linked_limits`. -/
def show_linked_x_axis_plots (st : LinePlotDemoState) : RcRange × RcRange :=
  (st.linked_limits.clone, st.linked_limits.clone)

/-- C9: `LinePlotDemoState::default()` and `LinePlotDemoState::new()`
produce identical states; `new` allocates exactly one cell, initialised
to Min = 0.0, Max = 1.0, reachable through the state's `linked_limits`
handle; and `show_linked_x_axis_plots` hands both plots clones of that
one handle, so both alias the same single cell. -/
theorem demo_state_new_default_aliasing (h : RcHeap) (st : LinePlotDemoState) :
    LinePlotDemoState.default h = LinePlotDemoState.new h ∧
      (LinePlotDemoState.new h).1.read (LinePlotDemoState.new h).2.linked_limits =
        some ⟨0, 1⟩ ∧
      (LinePlotDemoState.new h).1.cells.length = h.cells.length + 1 ∧
      (show_linked_x_axis_plots st).1 = st.linked_limits ∧
      (show_linked_x_axis_plots st).2 = st.linked_limits := by
  refine ⟨rfl, ?_, by simp [LinePlotDemoState.new, RcHeap.alloc], rfl, rfl⟩
  simp [LinePlotDemoState.new, RcHeap.alloc, RcHeap.read]

/-! ### The query-features demo body (claim C10)

Embedding of the build closure of `show_query_features_plot` and of the
post-draw printing decisions of `line_plots.rs`.  The closure runs
against the backend's interaction state and resolved transform; the
values it exfiltrates into its captured `Option` locals are the model's
output. -/

/-- The locals exfiltrated from the build closure of
`show_query_features_plot`. -/
structure QueryFeaturesResult where
  hover_pos_plot : Option ImPlotPoint
  hover_pos_pixels : Option ImVec2
  hover_pos_from_pixels : Option ImPlotPoint
  legend1_hovered : Bool
  legend2_hovered : Bool
deriving DecidableEq

/-- The build closure of `show_query_features_plot`: if
`is_plot_hovered()` then both `hover_pos_plot` (the mouse position in
plot coordinates) and `hover_pos_pixels` (its conversion back to pixels)
are set; `hover_pos_from_pixels` is set unconditionally from the imgui
mouse position; then the two legend series are submitted and their hover
states queried. -/
def show_query_features_body (it : Interaction) (tr : PlotTransform) :
    QueryFeaturesResult :=
  let hp : Option ImPlotPoint × Option ImVec2 :=
    if it.hovered then
      (some it.mousePlotPos, some (plotToPixels tr it.mousePlotPos))
    else
      (none, none)
  let hover_pos_from_pixels : Option ImPlotPoint := some (pixelsToPlot tr it.mousePos)
  let panel1 := (submit_line_series ⟨[]⟩ "Legend1" [2, 2] [2, 1]).1
  let panel2 := (submit_line_series panel1 "Legend2" [0, 0] [1, 1]).1
  { hover_pos_plot := hp.1
    hover_pos_pixels := hp.2
    hover_pos_from_pixels := hover_pos_from_pixels
    legend1_hovered := legendEntryHovered panel2 it "Legend1"
    legend2_hovered := legendEntryHovered panel2 it "Legend2" }

/-- After the draw, `ui.text("hovered at ...")` runs exactly when
`hover_pos_plot` is `Some` (the `if let Some(pos)` at the print site). -/
def printsHoveredAt (r : QueryFeaturesResult) : Bool :=
  r.hover_pos_plot.isSome

/-- After the draw, the "pixel pos" texts run exactly when
`hover_pos_pixels` is `Some`. -/
def printsPixelPos (r : QueryFeaturesResult) : Bool :=
  r.hover_pos_pixels.isSome

/-- C10: after the build closure of `show_query_features_plot` runs,
`hover_pos_plot` and `hover_pos_pixels` are both `None` or both `Some`,
each `Some` exactly when `is_plot_hovered()` returned true, while
`hover_pos_from_pixels` is always `Some`; consequently the "hovered at"
and "pixel pos" texts are printed exactly in the frames in which the
plot was hovered. -/
theorem query_features_hover_invariant (it : Interaction) (tr : PlotTransform) :
    ((show_query_features_body it tr).hover_pos_plot.isSome =
        (show_query_features_body it tr).hover_pos_pixels.isSome) ∧
      ((show_query_features_body it tr).hover_pos_plot.isSome = it.hovered) ∧
      (show_query_features_body it tr).hover_pos_from_pixels.isSome = true ∧
      printsHoveredAt (show_query_features_body it tr) = it.hovered ∧
      printsPixelPos (show_query_features_body it tr) = it.hovered := by
  cases h : it.hovered <;>
    simp [show_query_features_body, printsHoveredAt, printsPixelPos, h]

end ImplotSpec
